import Mathlib

/-!
# EGL context lifecycle and frame loop of `source/main.cpp`

A shallow embedding of `initEgl`, `deinitEgl`, `draw` and `main`.

* The three file-scope statics `s_display`, `s_context`, `s_surface` are the record
  `Globals`; every function takes the record and returns the updated one.
* EGL, libnx and Skia are external libraries.  Every value the program reads back from
  them is an input of the model (`EglOutcome`, `Env`), and every call the program makes
  is logged, in program order, with its arguments (`EglCall`, `Event`).
* Handles are pointers; they are natural numbers here and `0` is `nullptr`
  (`EGL_NO_SURFACE`, `EGL_NO_CONTEXT` and `EGL_DEFAULT_DISPLAY` are null as well).
* `printf` / `LTRACEF` output is not logged; the `eglGetError()` call made while building
  an `LTRACEF` argument is.
-/

namespace SwitchSkia

/-! ## Constants -/

/-- Width of the framebuffer: `#define FB_WIDTH 1280`. -/
def FB_WIDTH : Int := 1280

/-- Height of the framebuffer: `#define FB_HEIGHT 720`. -/
def FB_HEIGHT : Int := 720

/-- Value of the C macro `EXIT_FAILURE` returned by `main` when `initEgl` fails. -/
def EXIT_FAILURE : Int := 1

/-- Pointer-valued handle (`EGLDisplay`, `EGLContext`, `EGLSurface`, `EGLConfig`,
`NWindow*`); `0` is the null pointer. -/
abbrev Handle := Nat

/-! ## The EGL calls and what the backend answers -/

/-- One call into EGL, with the arguments passed and, where the model needs it, the value
the backend gave back. -/
inductive EglCall where
  | eglGetDisplay (ret : Handle)
  | eglGetError
  | eglInitialize (dpy : Handle) (ok : Bool)
  | eglBindAPI (ok : Bool)
  | eglChooseConfig (dpy : Handle) (config : Handle) (numConfigs : Nat)
  | eglCreateWindowSurface (dpy config win ret : Handle)
  | eglCreateContext (dpy config share ret : Handle)
  | eglMakeCurrent (dpy draw read ctx : Handle) (ok : Bool)
  | eglDestroySurface (dpy surface : Handle)
  | eglDestroyContext (dpy ctx : Handle)
  | eglTerminate (dpy : Handle)
  | eglSwapBuffers (dpy surface : Handle)
  deriving DecidableEq, Repr

/-- What the backend answers during one run of `initEgl`: the handle from `eglGetDisplay`,
the result of `eglInitialize`, the result of `eglBindAPI`, the configuration and the count
left in `config` / `numConfigs` by `eglChooseConfig`, the handles from
`eglCreateWindowSurface` and `eglCreateContext`, and the result of the final
`eglMakeCurrent`. -/
structure EglOutcome where
  display : Handle
  initializeOk : Bool
  bindApiOk : Bool
  config : Handle
  numConfigs : Nat
  surface : Handle
  context : Handle
  makeCurrentOk : Bool
  deriving DecidableEq, Repr

/-- The statics `s_display`, `s_context`, `s_surface`. -/
structure Globals where
  s_display : Handle
  s_context : Handle
  s_surface : Handle
  deriving DecidableEq, Repr

/-- All three statics null: their value at program start (zero-initialised statics), the
`Empty` state of the lifecycle. -/
def Globals.empty : Globals := ⟨0, 0, 0⟩

/-- Result of `initEgl`: the returned `bool`, the statics afterwards, the EGL calls made. -/
structure InitResult where
  ret : Bool
  globals : Globals
  calls : List EglCall
  deriving DecidableEq, Repr

/-- Result of `deinitEgl`: the statics afterwards and the EGL calls made. -/
structure DeinitResult where
  globals : Globals
  calls : List EglCall
  deriving DecidableEq, Repr

/-! ## `initEgl` -/

/-- Label `_fail0:` of `initEgl`: `return false`. -/
def _fail0 (g : Globals) (t : List EglCall) : InitResult :=
  ⟨false, g, t⟩

/-- Label `_fail1:` of `initEgl`: `eglTerminate(s_display); s_display = nullptr;` and fall
through to `_fail0`. -/
def _fail1 (g : Globals) (t : List EglCall) : InitResult :=
  _fail0 { g with s_display := 0 } (t ++ [EglCall.eglTerminate g.s_display])

/-- Label `_fail2:` of `initEgl`: `eglDestroySurface(s_display, s_surface);
s_surface = nullptr;` and fall through to `_fail1`. -/
def _fail2 (g : Globals) (t : List EglCall) : InitResult :=
  _fail1 { g with s_surface := 0 } (t ++ [EglCall.eglDestroySurface g.s_display g.s_surface])

/-- The function `initEgl(NWindow* win)`. -/
def initEgl (win : Handle) (o : EglOutcome) (g : Globals) : InitResult :=
  -- s_display = eglGetDisplay(EGL_DEFAULT_DISPLAY);
  let g1 : Globals := { g with s_display := o.display }
  let t1 : List EglCall := [EglCall.eglGetDisplay o.display]
  if g1.s_display = 0 then
    _fail0 g1 (t1 ++ [EglCall.eglGetError])
  else
    -- eglInitialize(s_display, nullptr, nullptr);  (result not looked at)
    let t2 := t1 ++ [EglCall.eglInitialize g1.s_display o.initializeOk]
    -- if (eglBindAPI(EGL_OPENGL_API) == EGL_FALSE)
    let t3 := t2 ++ [EglCall.eglBindAPI o.bindApiOk]
    if o.bindApiOk = false then
      _fail1 g1 (t3 ++ [EglCall.eglGetError])
    else
      -- eglChooseConfig(s_display, framebufferAttributeList, &config, 1, &numConfigs);
      let t4 := t3 ++ [EglCall.eglChooseConfig g1.s_display o.config o.numConfigs]
      if o.numConfigs = 0 then
        _fail1 g1 (t4 ++ [EglCall.eglGetError])
      else
        -- s_surface = eglCreateWindowSurface(s_display, config, win, nullptr);
        let g2 : Globals := { g1 with s_surface := o.surface }
        let t5 := t4 ++ [EglCall.eglCreateWindowSurface g1.s_display o.config win o.surface]
        if g2.s_surface = 0 then
          _fail1 g2 (t5 ++ [EglCall.eglGetError])
        else
          -- s_context = eglCreateContext(s_display, config, EGL_NO_CONTEXT, contextAttributeList);
          let g3 : Globals := { g2 with s_context := o.context }
          let t6 := t5 ++ [EglCall.eglCreateContext g2.s_display o.config 0 o.context]
          if g3.s_context = 0 then
            _fail2 g3 (t6 ++ [EglCall.eglGetError])
          else
            -- eglMakeCurrent(s_display, s_surface, s_surface, s_context); return true;
            ⟨true, g3,
              t6 ++ [EglCall.eglMakeCurrent g3.s_display g3.s_surface g3.s_surface g3.s_context
                o.makeCurrentOk]⟩

/-! ## `deinitEgl` -/

/-- The function `deinitEgl()`; `mcOk` is what the backend answers to the `eglMakeCurrent`
call (the program does not look at it). -/
def deinitEgl (mcOk : Bool) (g : Globals) : DeinitResult :=
  if g.s_display ≠ 0 then
    -- eglMakeCurrent(s_display, EGL_NO_SURFACE, EGL_NO_SURFACE, EGL_NO_CONTEXT);
    let t1 : List EglCall := [EglCall.eglMakeCurrent g.s_display 0 0 0 mcOk]
    -- if (s_context) { eglDestroyContext(s_display, s_context); s_context = nullptr; }
    let g1 : Globals := if g.s_context ≠ 0 then { g with s_context := 0 } else g
    let t2 := if g.s_context ≠ 0 then t1 ++ [EglCall.eglDestroyContext g.s_display g.s_context]
      else t1
    -- if (s_surface) { eglDestroySurface(s_display, s_surface); s_surface = nullptr; }
    let g2 : Globals := if g1.s_surface ≠ 0 then { g1 with s_surface := 0 } else g1
    let t3 := if g1.s_surface ≠ 0 then
        t2 ++ [EglCall.eglDestroySurface g1.s_display g1.s_surface]
      else t2
    -- eglTerminate(s_display); s_display = nullptr;
    ⟨{ g2 with s_display := 0 }, t3 ++ [EglCall.eglTerminate g2.s_display]⟩
  else
    ⟨g, []⟩

/-! ## The current binding -/

/-- The tuple passed to a successful `eglMakeCurrent`. -/
structure Binding where
  dpy : Handle
  draw : Handle
  read : Handle
  ctx : Handle
  deriving DecidableEq, Repr

/-- Modelled from the spec: the EGL library is not part of the repository; CurrentBinding
is the process-wide relation (display, surface, context) set by "make current".  A
successful `eglMakeCurrent` with null surfaces and null context clears it, a successful one
with other arguments sets it to them, and every other call leaves it as it is. -/
def applyCall (b : Option Binding) : EglCall → Option Binding
  | EglCall.eglMakeCurrent d dr rd c true =>
    if dr = 0 ∧ rd = 0 ∧ c = 0 then none else some ⟨d, dr, rd, c⟩
  | _ => b

/-- The binding after a sequence of EGL calls, starting from binding `b`. -/
def currentBinding (b : Option Binding) (t : List EglCall) : Option Binding :=
  t.foldl applyCall b

/-! ## Resource accounting over a call log -/

/-- A resource handed out by the backend. -/
inductive Resource where
  | display (dpy : Handle)
  | surface (dpy s : Handle)
  | context (dpy c : Handle)
  deriving DecidableEq, Repr

/-- The resources the backend handed out during a call log, in order of creation (a null
result is a failed creation and hands out nothing). -/
def createdBy : List EglCall → List Resource
  | [] => []
  | EglCall.eglGetDisplay ret :: t =>
    if ret = 0 then createdBy t else Resource.display ret :: createdBy t
  | EglCall.eglCreateWindowSurface dpy _ _ ret :: t =>
    if ret = 0 then createdBy t else Resource.surface dpy ret :: createdBy t
  | EglCall.eglCreateContext dpy _ _ ret :: t =>
    if ret = 0 then createdBy t else Resource.context dpy ret :: createdBy t
  | _ :: t => createdBy t

/-- The resources the program gave back during a call log, in order of destruction. -/
def destroyedBy : List EglCall → List Resource
  | [] => []
  | EglCall.eglTerminate dpy :: t => Resource.display dpy :: destroyedBy t
  | EglCall.eglDestroySurface dpy s :: t => Resource.surface dpy s :: destroyedBy t
  | EglCall.eglDestroyContext dpy c :: t => Resource.context dpy c :: destroyedBy t
  | _ :: t => destroyedBy t

/-! ## Sequences of `initEgl` / `deinitEgl` calls -/

/-- One call of the context manager, with what the backend answers during it. -/
inductive Op where
  | acquire (win : Handle) (o : EglOutcome)
  | release (mcOk : Bool)
  deriving DecidableEq, Repr

/-- The statics together with the bookkeeping flag `held`: the last `initEgl` that
returned `true` has not been followed by a `deinitEgl` yet. -/
structure Mgr where
  g : Globals
  held : Bool
  deriving DecidableEq, Repr

/-- Runs a sequence of calls.  `none` when the sequence calls `initEgl` although an earlier
successful `initEgl` has not been released (the precondition of `initEgl`). -/
def runOps : Mgr → List Op → Option Mgr
  | m, [] => some m
  | m, Op.acquire win o :: rest =>
    if m.held then none
    else runOps ⟨(initEgl win o m.g).globals, (initEgl win o m.g).ret⟩ rest
  | m, Op.release mcOk :: rest =>
    runOps ⟨(deinitEgl mcOk m.g).globals, false⟩ rest

/-- The invariant of well-formed call sequences: while a successful `initEgl` is
unreleased all three handles are non-null, otherwise the statics are `Empty`. -/
def MgrInv (m : Mgr) : Prop :=
  if m.held = true then m.g.s_display ≠ 0 ∧ m.g.s_surface ≠ 0 ∧ m.g.s_context ≠ 0
  else m.g = Globals.empty

/-! ## `draw` and `main` -/

/-- The paint colours used: `SK_ColorBLUE`, `SK_ColorWHITE`, `SK_ColorBLACK`. -/
inductive Color where
  | blue
  | white
  | black
  deriving DecidableEq, Repr

/-- What `main` does that is visible outside it, in program order.  The last three are the
destructors of the locals `surface`, `ctx` and `interface` (each an `sk_sp`), which run when
`main` returns. -/
inductive Event where
  | egl (c : EglCall)
  | nwindowGetDefault (ret : Handle)
  | GrGLMakeNativeInterface
  | GrContextMakeGL
  | fGetIntegerv (buffer : Int)
  | MakeFromBackendRenderTarget (width height fboid : Int)
  | getCanvas
  | appletMainLoop (ret : Bool)
  | hidScanInput
  | hidKeysDown (kDown : Nat)
  | clear (c : Color)
  | drawCircle (cx cy r : Int) (c : Color)
  | flush
  | dropSurface
  | dropGrContext
  | dropInterface
  deriving DecidableEq, Repr

/-- The function `draw(int x, int y, SkCanvas& canvas)`: four circles. -/
def draw (x y : Int) : List Event :=
  [Event.drawCircle (x + 128) (y + 128) 90 Color.blue,
   Event.drawCircle (x + 86) (y + 86) 20 Color.white,
   Event.drawCircle (x + 160) (y + 76) 20 Color.white,
   Event.drawCircle (x + 140) (y + 150) 35 Color.white]

/-- What the collaborators of `main` answer: the default window, the answers of EGL during
`initEgl`, the bound framebuffer id, the result of the `i`-th call of `appletMainLoop()`,
the result of the `i`-th call of `hidKeysDown`, the bit mask `KEY_PLUS` (a libnx constant),
and the answer to the `eglMakeCurrent` of `deinitEgl`. -/
structure Env where
  win : Handle
  egl : EglOutcome
  buffer : Int
  appletMainLoop : Nat → Bool
  hidKeysDown : Nat → Nat
  KEY_PLUS : Nat
  deinitMakeCurrentOk : Bool

/-- The per-frame update of `x`: `x += 10; if (x > FB_WIDTH) x = 0;`.  The value never
exceeds 1290, so the `int` addition does not overflow. -/
def sweep (x : Int) : Int :=
  let x1 := x + 10
  if x1 > FB_WIDTH then 0 else x1

/-- The loop head and input poll of iteration `i` when `appletMainLoop()` returned true:
`appletMainLoop()`, `hidScanInput()`, `hidKeysDown(CONTROLLER_P1_AUTO)`. -/
def pollEvents (env : Env) (i : Nat) : List Event :=
  [Event.appletMainLoop true, Event.hidScanInput, Event.hidKeysDown (env.hidKeysDown i)]

/-- The rest of the loop body once `x` has been updated to `x`: `canvas->clear`, the three
`draw` calls, `canvas->flush()`, `eglSwapBuffers(s_display, s_surface)`. -/
def frameBody (g : Globals) (x : Int) : List Event :=
  [Event.clear Color.black] ++ draw x 10 ++ draw (x + 200) 10 ++ draw x 210 ++
    [Event.flush, Event.egl (EglCall.eglSwapBuffers g.s_display g.s_surface)]

/-- Result of running the `while` loop: whether it was left within the given number of
iterations, the value of `x`, and the events so far. -/
structure LoopResult where
  finished : Bool
  x : Int
  trace : List Event
  deriving DecidableEq, Repr

/-- The loop `while (appletMainLoop()) { ... }` of `main`, from iteration `i` with the
given `x`, for at most `fuel` iterations. -/
def mainLoop (env : Env) (g : Globals) : Nat → Nat → Int → LoopResult
  | 0, _, x => ⟨false, x, []⟩
  | fuel + 1, i, x =>
    if env.appletMainLoop i = false then
      ⟨true, x, [Event.appletMainLoop false]⟩
    else if env.hidKeysDown i &&& env.KEY_PLUS ≠ 0 then
      -- if (kDown & KEY_PLUS) break;
      ⟨true, x, pollEvents env i⟩
    else
      let x1 := sweep x
      let r := mainLoop env g fuel (i + 1) x1
      ⟨r.finished, r.x, pollEvents env i ++ frameBody g x1 ++ r.trace⟩

/-- The events of `n` complete loop iterations (poll, clear, draw, flush, present),
starting at iteration `i` with the given `x`. -/
def cycles (env : Env) (g : Globals) : Nat → Nat → Int → List Event
  | 0, _, _ => []
  | n + 1, i, x =>
    pollEvents env i ++ frameBody g (sweep x) ++ cycles env g n (i + 1) (sweep x)

/-- Result of `main`: the exit status (`none` while the loop is still running when the
fuel is used up) and the events so far. -/
structure MainResult where
  status : Option Int
  trace : List Event
  deriving DecidableEq, Repr

/-- The events between a successful `initEgl` and the loop: `GrGLMakeNativeInterface()`,
`GrContext::MakeGL()`, the `GL_FRAMEBUFFER_BINDING` query,
`SkSurface::MakeFromBackendRenderTarget`, `surface->getCanvas()`. -/
def setupEvents (env : Env) : List Event :=
  [Event.GrGLMakeNativeInterface, Event.GrContextMakeGL, Event.fGetIntegerv env.buffer,
   Event.MakeFromBackendRenderTarget FB_WIDTH FB_HEIGHT env.buffer, Event.getCanvas]

/-- The destructors that run at `return 0;`, locals in reverse order of declaration. -/
def scopeExit : List Event :=
  [Event.dropSurface, Event.dropGrContext, Event.dropInterface]

/-- The function `main`, with at most `fuel` loop iterations. -/
def main (env : Env) (fuel : Nat) : MainResult :=
  -- if (!initEgl(nwindowGetDefault())) return EXIT_FAILURE;
  let r := initEgl env.win env.egl Globals.empty
  let t0 := [Event.nwindowGetDefault env.win] ++ r.calls.map Event.egl
  if r.ret = false then
    ⟨some EXIT_FAILURE, t0⟩
  else
    let t1 := t0 ++ setupEvents env
    -- int x = 0; while (appletMainLoop()) { ... }
    let l := mainLoop env r.globals fuel 0 0
    if l.finished = false then
      ⟨none, t1 ++ l.trace⟩
    else
      -- deinitEgl(); return 0;
      let d := deinitEgl env.deinitMakeCurrentOk r.globals
      ⟨some 0, t1 ++ l.trace ++ d.calls.map Event.egl ++ scopeExit⟩

/-- The events of the iteration at which the loop is left: the failed loop condition, or
the poll that reported `+`. -/
def exitEvents (env : Env) (n : Nat) : List Event :=
  if env.appletMainLoop n = false then [Event.appletMainLoop false] else pollEvents env n

/-- The events of `main` before the loop when `initEgl` succeeds. -/
def startEvents (env : Env) : List Event :=
  [Event.nwindowGetDefault env.win] ++
    (initEgl env.win env.egl Globals.empty).calls.map Event.egl ++ setupEvents env

/-- The events of the `deinitEgl()` call of `main`. -/
def releaseEvents (env : Env) : List Event :=
  (deinitEgl env.deinitMakeCurrentOk
    (initEgl env.win env.egl Globals.empty).globals).calls.map Event.egl

/-- An environment for examples: every EGL step succeeds, `+` is never down, and the first
call of `appletMainLoop()` returns false. -/
def appletStopEnv : Env :=
  { win := 7
    egl := ⟨1, true, true, 2, 1, 3, 4, true⟩
    buffer := 0
    appletMainLoop := fun _ => false
    hidKeysDown := fun _ => 0
    KEY_PLUS := 1024
    deinitMakeCurrentOk := true }

/-- An environment for examples: every EGL step succeeds, `appletMainLoop()` keeps
returning true and `+` is never down. -/
def idleEnv : Env :=
  { win := 7
    egl := ⟨1, true, true, 2, 1, 3, 4, true⟩
    buffer := 0
    appletMainLoop := fun _ => true
    hidKeysDown := fun _ => 0
    KEY_PLUS := 1024
    deinitMakeCurrentOk := true }

/-- Some event satisfying `p` comes, in the trace, before some event satisfying `q`. -/
def occursBefore (p q : Event → Bool) : List Event → Bool
  | [] => false
  | e :: es => (p e && es.any q) || occursBefore p q es

/-- The destructor of the local `surface`: the GPU draw surface is discarded. -/
def isDiscard : Event → Bool
  | Event.dropSurface => true
  | _ => false

/-- The first call of `deinitEgl`: `eglMakeCurrent` with null surfaces and null context. -/
def isClearBinding : Event → Bool
  | Event.egl (EglCall.eglMakeCurrent _ dr rd c _) => dr == 0 && rd == 0 && c == 0
  | _ => false

/-- An input poll: a `hidKeysDown` call. -/
def isPoll : Event → Bool
  | Event.hidKeysDown _ => true
  | _ => false

/-- A `canvas->clear` call. -/
def isClear : Event → Bool
  | Event.clear _ => true
  | _ => false

/-- A `drawCircle` call. -/
def isDrawCircle : Event → Bool
  | Event.drawCircle _ _ _ _ => true
  | _ => false

/-- A `canvas->flush()` call. -/
def isFlush : Event → Bool
  | Event.flush => true
  | _ => false

/-- An `eglSwapBuffers` call (present). -/
def isPresent : Event → Bool
  | Event.egl (EglCall.eglSwapBuffers _ _) => true
  | _ => false

/-- An `eglTerminate` call. -/
def isTerminate : Event → Bool
  | Event.egl (EglCall.eglTerminate _) => true
  | _ => false

/-- An environment for examples: every EGL step succeeds, `appletMainLoop()` keeps
returning true, and `+` (bit 10) is reported down exactly at poll number `k`. -/
def sampleEnv (k : Nat) : Env :=
  { win := 7
    egl := ⟨1, true, true, 2, 1, 3, 4, true⟩
    buffer := 0
    appletMainLoop := fun _ => true
    hidKeysDown := fun i => if i = k then 1024 else 0
    KEY_PLUS := 1024
    deinitMakeCurrentOk := true }

/-! ## Predicates on the backend answers -/

/-- The five places where `initEgl` checks a backend answer and jumps to a `_fail` label. -/
inductive FailPoint where
  | noDisplay
  | apiRejected
  | noConfig
  | surfaceFailed
  | contextFailed
  deriving DecidableEq, Repr

/-- The backend fails at the given check and succeeds at every earlier one. -/
def failsAt (o : EglOutcome) : FailPoint → Prop
  | FailPoint.noDisplay => o.display = 0
  | FailPoint.apiRejected => o.display ≠ 0 ∧ o.bindApiOk = false
  | FailPoint.noConfig => o.display ≠ 0 ∧ o.bindApiOk = true ∧ o.numConfigs = 0
  | FailPoint.surfaceFailed =>
    o.display ≠ 0 ∧ o.bindApiOk = true ∧ o.numConfigs ≠ 0 ∧ o.surface = 0
  | FailPoint.contextFailed =>
    o.display ≠ 0 ∧ o.bindApiOk = true ∧ o.numConfigs ≠ 0 ∧ o.surface ≠ 0 ∧ o.context = 0

/-- The resources the backend has handed out when it fails at the given check. -/
def createdBefore (o : EglOutcome) : FailPoint → List Resource
  | FailPoint.noDisplay => []
  | FailPoint.apiRejected => [Resource.display o.display]
  | FailPoint.noConfig => [Resource.display o.display]
  | FailPoint.surfaceFailed => [Resource.display o.display]
  | FailPoint.contextFailed =>
    [Resource.display o.display, Resource.surface o.display o.surface]

/-- The backend succeeds at all five checks of `initEgl`: display non-null, API bind not
rejected, at least one configuration, surface non-null, context non-null. -/
def checkedStepsOk (o : EglOutcome) : Prop :=
  o.display ≠ 0 ∧ o.bindApiOk = true ∧ o.numConfigs ≠ 0 ∧ o.surface ≠ 0 ∧ o.context ≠ 0

end SwitchSkia

namespace SwitchSkia

/-! ## `initEgl`: failure paths -/

/-- C1: when `initEgl` is called with all three statics null and the backend fails at one
of the five checks (succeeding at the earlier ones), it returns `false`, leaves all three
statics null, and the resources it gives back are exactly the resources the backend handed
out during the call, each once, in reverse order of creation. -/
theorem initEgl_failure_unwinds (win : Handle) (o : EglOutcome) (p : FailPoint)
    (h : failsAt o p) :
    (initEgl win o Globals.empty).ret = false ∧
    (initEgl win o Globals.empty).globals = Globals.empty ∧
    createdBy (initEgl win o Globals.empty).calls = createdBefore o p ∧
    destroyedBy (initEgl win o Globals.empty).calls =
      (createdBy (initEgl win o Globals.empty).calls).reverse ∧
    (∀ r, r ∈ createdBy (initEgl win o Globals.empty).calls →
      (destroyedBy (initEgl win o Globals.empty).calls).count r = 1) := by
  cases p <;>
    simp only [failsAt] at h <;>
    simp [initEgl, _fail0, _fail1, _fail2, Globals.empty, createdBy, destroyedBy,
      createdBefore, h]

/-- Witness of `initEgl_failure_unwinds`: context creation fails after display 1 and
surface 3 were handed out. -/
theorem initEgl_failure_unwinds_witness :
    failsAt ⟨1, true, true, 2, 1, 3, 0, true⟩ FailPoint.contextFailed ∧
    (initEgl 7 ⟨1, true, true, 2, 1, 3, 0, true⟩ Globals.empty).ret = false ∧
    (initEgl 7 ⟨1, true, true, 2, 1, 3, 0, true⟩ Globals.empty).globals = Globals.empty ∧
    destroyedBy (initEgl 7 ⟨1, true, true, 2, 1, 3, 0, true⟩ Globals.empty).calls =
      [Resource.surface 1 3, Resource.display 1] :=
  have h : failsAt ⟨1, true, true, 2, 1, 3, 0, true⟩ FailPoint.contextFailed := by
    simp [failsAt]
  have t := initEgl_failure_unwinds 7 ⟨1, true, true, 2, 1, 3, 0, true⟩
    FailPoint.contextFailed h
  ⟨h, t.1, t.2.1, by rw [t.2.2.2.1, t.2.2.1]; rfl⟩

/-! ## `deinitEgl` -/

/-- C3: when `s_display` is non-null (whatever `s_context` and `s_surface` are),
`deinitEgl` leaves all three statics null and calls, in this order: `eglMakeCurrent` with
null surfaces and null context, `eglDestroyContext` if and only if `s_context` was non-null,
`eglDestroySurface` if and only if `s_surface` was non-null, `eglTerminate`. -/
theorem deinitEgl_teardown_order (mcOk : Bool) (g : Globals) (h : g.s_display ≠ 0) :
    (deinitEgl mcOk g).globals = Globals.empty ∧
    (deinitEgl mcOk g).calls =
      [EglCall.eglMakeCurrent g.s_display 0 0 0 mcOk] ++
      (if g.s_context ≠ 0 then [EglCall.eglDestroyContext g.s_display g.s_context] else []) ++
      (if g.s_surface ≠ 0 then [EglCall.eglDestroySurface g.s_display g.s_surface] else []) ++
      [EglCall.eglTerminate g.s_display] := by
  obtain ⟨d, c, s⟩ := g
  simp only at h
  by_cases hc : c = 0 <;> by_cases hs : s = 0 <;>
    simp [deinitEgl, Globals.empty, h, hc, hs]

/-- Witness of `deinitEgl_teardown_order`: a partially initialised state with a display
and a surface but no context. -/
theorem deinitEgl_teardown_order_witness :
    (⟨1, 0, 3⟩ : Globals).s_display ≠ 0 ∧
    (deinitEgl true ⟨1, 0, 3⟩).globals = Globals.empty ∧
    (deinitEgl true ⟨1, 0, 3⟩).calls =
      [EglCall.eglMakeCurrent 1 0 0 0 true, EglCall.eglDestroySurface 1 3,
       EglCall.eglTerminate 1] :=
  have t := deinitEgl_teardown_order true ⟨1, 0, 3⟩ (by decide)
  ⟨by decide, t.1, by rw [t.2]; rfl⟩

/-- C9: when `s_display` is null, `deinitEgl` makes no EGL call and leaves the three
statics as they are; and from any state, a second `deinitEgl` right after a first one makes
no EGL call and changes nothing. -/
theorem deinitEgl_noop_when_display_null (mcOk : Bool) (g : Globals) (h : g.s_display = 0) :
    (deinitEgl mcOk g).calls = [] ∧ (deinitEgl mcOk g).globals = g ∧
    ∀ (g0 : Globals) (r1 r2 : Bool),
      (deinitEgl r2 (deinitEgl r1 g0).globals).calls = [] ∧
      (deinitEgl r2 (deinitEgl r1 g0).globals).globals = (deinitEgl r1 g0).globals := by
  have key : ∀ (r : Bool) (g1 : Globals), g1.s_display = 0 →
      (deinitEgl r g1).calls = [] ∧ (deinitEgl r g1).globals = g1 := by
    intro r g1 h1
    simp [deinitEgl, h1]
  have dnull : ∀ (r : Bool) (g1 : Globals), (deinitEgl r g1).globals.s_display = 0 := by
    intro r g1
    by_cases hd : g1.s_display = 0
    · rw [(key r g1 hd).2]; exact hd
    · simp [deinitEgl, hd]
  exact ⟨(key mcOk g h).1, (key mcOk g h).2, fun g0 r1 r2 => key r2 _ (dnull r1 g0)⟩

/-- Witness of `deinitEgl_noop_when_display_null`: the `Empty` state. -/
theorem deinitEgl_noop_when_display_null_witness :
    Globals.empty.s_display = 0 ∧
    (deinitEgl true Globals.empty).calls = [] ∧
    (deinitEgl true Globals.empty).globals = Globals.empty :=
  have t := deinitEgl_noop_when_display_null true Globals.empty rfl
  ⟨rfl, t.1, t.2.1⟩

/-! ## `initEgl`: the success path -/

/-- What `initEgl` does when the five checks pass, from any statics. -/
theorem initEgl_of_checkedStepsOk (win : Handle) (o : EglOutcome) (g : Globals)
    (h : checkedStepsOk o) :
    initEgl win o g =
      ⟨true, ⟨o.display, o.context, o.surface⟩,
        [EglCall.eglGetDisplay o.display, EglCall.eglInitialize o.display o.initializeOk,
         EglCall.eglBindAPI o.bindApiOk,
         EglCall.eglChooseConfig o.display o.config o.numConfigs,
         EglCall.eglCreateWindowSurface o.display o.config win o.surface,
         EglCall.eglCreateContext o.display o.config 0 o.context,
         EglCall.eglMakeCurrent o.display o.surface o.surface o.context o.makeCurrentOk]⟩ := by
  obtain ⟨h1, h2, h3, h4, h5⟩ := h
  simp [initEgl, h1, h2, h3, h4, h5]

/-- The value returned by `initEgl` is true exactly when the five checks pass. -/
theorem initEgl_ret_iff (win : Handle) (o : EglOutcome) (g : Globals) :
    (initEgl win o g).ret = true ↔ checkedStepsOk o := by
  constructor
  · intro h
    by_cases h1 : o.display = 0
    · simp [initEgl, _fail0, h1] at h
    by_cases h2 : o.bindApiOk = false
    · simp [initEgl, _fail0, _fail1, h1, h2] at h
    by_cases h3 : o.numConfigs = 0
    · simp [initEgl, _fail0, _fail1, h1, h2, h3] at h
    by_cases h4 : o.surface = 0
    · simp [initEgl, _fail0, _fail1, h1, h2, h3, h4] at h
    by_cases h5 : o.context = 0
    · simp [initEgl, _fail0, _fail1, _fail2, h1, h2, h3, h4, h5] at h
    exact ⟨h1, by simpa using h2, h3, h4, h5⟩
  · intro h
    rw [initEgl_of_checkedStepsOk win o g h]

/-- From the `Empty` state, a failing `initEgl` ends in the `Empty` state. -/
theorem initEgl_empty_of_ret_false (win : Handle) (o : EglOutcome)
    (h : (initEgl win o Globals.empty).ret = false) :
    (initEgl win o Globals.empty).globals = Globals.empty := by
  by_cases h1 : o.display = 0
  · simp [initEgl, _fail0, Globals.empty, h1]
  by_cases h2 : o.bindApiOk = false
  · simp [initEgl, _fail0, _fail1, Globals.empty, h1, h2]
  by_cases h3 : o.numConfigs = 0
  · simp [initEgl, _fail0, _fail1, Globals.empty, h1, h2, h3]
  by_cases h4 : o.surface = 0
  · simp [initEgl, _fail0, _fail1, Globals.empty, h1, h2, h3, h4]
  by_cases h5 : o.context = 0
  · simp [initEgl, _fail0, _fail1, _fail2, Globals.empty, h1, h2, h3, h4, h5]
  have := (initEgl_ret_iff win o Globals.empty).2 ⟨h1, by simpa using h2, h3, h4, h5⟩
  rw [this] at h
  cases h

/-- The binding after a log that ends with a successful `eglMakeCurrent` on non-null
arguments is the tuple of that call. -/
theorem currentBinding_append_makeCurrent (b : Option Binding) (t : List EglCall)
    (d s c : Handle) (hc : c ≠ 0) :
    currentBinding b (t ++ [EglCall.eglMakeCurrent d s s c true]) = some ⟨d, s, s, c⟩ := by
  simp [currentBinding, List.foldl_append, applyCall, hc]

/-- C6: when the five checks pass in a first `initEgl` from the `Empty` state, the
following `deinitEgl` brings the statics back to `Empty`, and a second `initEgl` whose five
checks pass returns `true` and yields exactly the result (return value, statics, EGL calls)
of a single `initEgl` from `Empty` with the same backend answers: all three handles are
non-null and, when its `eglMakeCurrent` succeeds, they are the current binding. -/
theorem acquire_release_acquire (win : Handle) (o1 o2 : EglOutcome) (mcOk : Bool)
    (b0 : Option Binding) (h1 : checkedStepsOk o1) (h2 : checkedStepsOk o2)
    (hm : o2.makeCurrentOk = true) :
    (initEgl win o1 Globals.empty).ret = true ∧
    (deinitEgl mcOk (initEgl win o1 Globals.empty).globals).globals = Globals.empty ∧
    (initEgl win o2 (deinitEgl mcOk (initEgl win o1 Globals.empty).globals).globals).ret
      = true ∧
    initEgl win o2 (deinitEgl mcOk (initEgl win o1 Globals.empty).globals).globals
      = initEgl win o2 Globals.empty ∧
    (initEgl win o2 Globals.empty).globals = ⟨o2.display, o2.context, o2.surface⟩ ∧
    (o2.display ≠ 0 ∧ o2.context ≠ 0 ∧ o2.surface ≠ 0) ∧
    currentBinding b0 ((initEgl win o1 Globals.empty).calls ++
        (deinitEgl mcOk (initEgl win o1 Globals.empty).globals).calls ++
        (initEgl win o2
          (deinitEgl mcOk (initEgl win o1 Globals.empty).globals).globals).calls)
      = some ⟨o2.display, o2.surface, o2.surface, o2.context⟩ ∧
    currentBinding none (initEgl win o2 Globals.empty).calls
      = some ⟨o2.display, o2.surface, o2.surface, o2.context⟩ := by
  have e1 := initEgl_of_checkedStepsOk win o1 Globals.empty h1
  have hd : (deinitEgl mcOk (initEgl win o1 Globals.empty).globals).globals
      = Globals.empty := by
    rw [e1]
    obtain ⟨a, _, _, b, c⟩ := h1
    simp [deinitEgl, Globals.empty, a, b, c]
  rw [hd]
  have e2 := initEgl_of_checkedStepsOk win o2 Globals.empty h2
  refine ⟨by rw [e1], rfl, by rw [e2], rfl, by rw [e2], ⟨h2.1, h2.2.2.2.2, h2.2.2.2.1⟩,
    ?_, ?_⟩
  · rw [e2, hm]
    have := currentBinding_append_makeCurrent b0
      ((initEgl win o1 Globals.empty).calls ++
        (deinitEgl mcOk (initEgl win o1 Globals.empty).globals).calls ++
        [EglCall.eglGetDisplay o2.display, EglCall.eglInitialize o2.display o2.initializeOk,
         EglCall.eglBindAPI o2.bindApiOk,
         EglCall.eglChooseConfig o2.display o2.config o2.numConfigs,
         EglCall.eglCreateWindowSurface o2.display o2.config win o2.surface,
         EglCall.eglCreateContext o2.display o2.config 0 o2.context])
      o2.display o2.surface o2.context h2.2.2.2.2
    simpa using this
  · rw [e2, hm]
    simp [currentBinding, applyCall, h2.2.2.2.2]

/-- Witness of `acquire_release_acquire`: two backends on which every step succeeds. -/
theorem acquire_release_acquire_witness :
    checkedStepsOk ⟨1, true, true, 2, 1, 3, 4, true⟩ ∧
    checkedStepsOk ⟨5, true, true, 6, 1, 8, 9, true⟩ ∧
    initEgl 7 ⟨5, true, true, 6, 1, 8, 9, true⟩
        (deinitEgl true (initEgl 7 ⟨1, true, true, 2, 1, 3, 4, true⟩ Globals.empty).globals).globals
      = initEgl 7 ⟨5, true, true, 6, 1, 8, 9, true⟩ Globals.empty ∧
    (initEgl 7 ⟨5, true, true, 6, 1, 8, 9, true⟩ Globals.empty).globals = ⟨5, 9, 8⟩ :=
  have k1 : checkedStepsOk ⟨1, true, true, 2, 1, 3, 4, true⟩ := by simp [checkedStepsOk]
  have k2 : checkedStepsOk ⟨5, true, true, 6, 1, 8, 9, true⟩ := by simp [checkedStepsOk]
  have t := acquire_release_acquire 7 ⟨1, true, true, 2, 1, 3, 4, true⟩
    ⟨5, true, true, 6, 1, 8, 9, true⟩ true none k1 k2 rfl
  ⟨k1, k2, t.2.2.2.1, t.2.2.2.2.1⟩

/-- C10: `initEgl` returns `true` exactly when the five checks pass; neither its return
value nor the statics it leaves depend on what `eglInitialize` and the final
`eglMakeCurrent` answer; so when the five checks pass and `eglMakeCurrent` fails, it still
returns `true` with three non-null handles while the current binding is what it was
before the call. -/
theorem initEgl_ret_ignores_unchecked_calls (win : Handle) (o : EglOutcome) (g : Globals)
    (b0 : Option Binding) :
    ((initEgl win o g).ret = true ↔ checkedStepsOk o) ∧
    (∀ (i m : Bool),
      (initEgl win { o with initializeOk := i, makeCurrentOk := m } g).ret
        = (initEgl win o g).ret ∧
      (initEgl win { o with initializeOk := i, makeCurrentOk := m } g).globals
        = (initEgl win o g).globals) ∧
    (checkedStepsOk o → o.makeCurrentOk = false →
      (initEgl win o g).ret = true ∧
      (initEgl win o g).globals.s_display ≠ 0 ∧
      (initEgl win o g).globals.s_surface ≠ 0 ∧
      (initEgl win o g).globals.s_context ≠ 0 ∧
      currentBinding b0 (initEgl win o g).calls = b0) := by
  refine ⟨initEgl_ret_iff win o g, ?_, ?_⟩
  · intro i m
    by_cases h1 : o.display = 0
    · simp [initEgl, _fail0, h1]
    by_cases h2 : o.bindApiOk = false
    · simp [initEgl, _fail0, _fail1, h1, h2]
    by_cases h3 : o.numConfigs = 0
    · simp [initEgl, _fail0, _fail1, h1, h2, h3]
    by_cases h4 : o.surface = 0
    · simp [initEgl, _fail0, _fail1, h1, h2, h3, h4]
    by_cases h5 : o.context = 0
    · simp [initEgl, _fail0, _fail1, _fail2, h1, h2, h3, h4, h5]
    simp [initEgl, h1, h2, h3, h4, h5]
  · intro h hm
    rw [initEgl_of_checkedStepsOk win o g h, hm]
    obtain ⟨a, _, _, b, c⟩ := h
    exact ⟨rfl, a, b, c, by simp [currentBinding, applyCall]⟩

/-- Witness of `initEgl_ret_ignores_unchecked_calls`: the five checks pass while both
`eglInitialize` and `eglMakeCurrent` fail. -/
theorem initEgl_ret_ignores_unchecked_calls_witness :
    checkedStepsOk ⟨1, false, true, 2, 1, 3, 4, false⟩ ∧
    (initEgl 7 ⟨1, false, true, 2, 1, 3, 4, false⟩ Globals.empty).ret = true ∧
    currentBinding none (initEgl 7 ⟨1, false, true, 2, 1, 3, 4, false⟩ Globals.empty).calls
      = none :=
  have k : checkedStepsOk ⟨1, false, true, 2, 1, 3, 4, false⟩ := by simp [checkedStepsOk]
  have t := (initEgl_ret_ignores_unchecked_calls 7 ⟨1, false, true, 2, 1, 3, 4, false⟩
    Globals.empty none).2.2 k rfl
  ⟨k, t.1, t.2.2.2.2⟩

/-! ## Sequences of calls: the handle invariant -/

/-- After `deinitEgl` from a state satisfying the invariant the statics are `Empty`. -/
theorem deinitEgl_empty_of_inv (mcOk : Bool) (m : Mgr) (h : MgrInv m) :
    (deinitEgl mcOk m.g).globals = Globals.empty := by
  obtain ⟨⟨d, c, s⟩, held⟩ := m
  cases held
  · simp only [MgrInv, Bool.false_eq_true, if_false] at h
    rw [h]
    rfl
  · simp only [MgrInv, if_true] at h
    obtain ⟨a, b, c1⟩ := h
    simp [deinitEgl, Globals.empty, a, b, c1]

/-- Running a well-formed sequence of calls keeps the invariant. -/
theorem runOps_inv (ops : List Op) :
    ∀ (m m1 : Mgr), MgrInv m → runOps m ops = some m1 → MgrInv m1 := by
  induction ops with
  | nil =>
    intro m m1 hinv hrun
    simp only [runOps, Option.some.injEq] at hrun
    rw [← hrun]
    exact hinv
  | cons op rest ih =>
    intro m m1 hinv hrun
    cases op with
    | acquire win o =>
      by_cases hh : m.held = true
      · simp [runOps, hh] at hrun
      · simp only [runOps, hh, Bool.false_eq_true, if_false] at hrun
        have hg : m.g = Globals.empty := by
          simpa [MgrInv, hh] using hinv
        refine ih _ m1 ?_ hrun
        rw [hg]
        cases hr : (initEgl win o Globals.empty).ret
        · have := initEgl_empty_of_ret_false win o hr
          simp [MgrInv, this]
        · have hok := (initEgl_ret_iff win o Globals.empty).1 hr
          rw [initEgl_of_checkedStepsOk win o Globals.empty hok]
          obtain ⟨a, _, _, b, c⟩ := hok
          simp [MgrInv, a, b, c]
    | release mcOk =>
      simp only [runOps] at hrun
      refine ih _ m1 ?_ hrun
      simp [MgrInv, deinitEgl_empty_of_inv mcOk m hinv]

/-- C8: in every state reached from the `Empty` state by a sequence of `initEgl` and
`deinitEgl` calls that never calls `initEgl` while an earlier successful `initEgl` is
unreleased, whatever the backend answers, a null `s_display` implies that `s_surface` and
`s_context` are null. -/
theorem display_null_implies_others_null (ops : List Op) (m : Mgr)
    (hrun : runOps ⟨Globals.empty, false⟩ ops = some m) (hd : m.g.s_display = 0) :
    m.g.s_surface = 0 ∧ m.g.s_context = 0 := by
  have hinv : MgrInv m := runOps_inv ops ⟨Globals.empty, false⟩ m (by simp [MgrInv]) hrun
  by_cases hh : m.held = true
  · have := hinv
    simp only [MgrInv, hh, if_true] at this
    exact absurd hd this.1
  · have : m.g = Globals.empty := by simpa [MgrInv, hh] using hinv
    rw [this]
    exact ⟨rfl, rfl⟩

/-- Witness of `display_null_implies_others_null`: a failed `initEgl` (no context), a
successful one, a `deinitEgl`, and an `initEgl` that fails at surface creation. -/
theorem display_null_implies_others_null_witness :
    runOps ⟨Globals.empty, false⟩
      [Op.acquire 7 ⟨1, true, true, 2, 1, 3, 0, true⟩,
       Op.acquire 7 ⟨1, true, true, 2, 1, 3, 4, true⟩,
       Op.release true,
       Op.acquire 7 ⟨1, true, true, 2, 1, 0, 4, true⟩] = some ⟨⟨0, 0, 0⟩, false⟩ ∧
    (⟨⟨0, 0, 0⟩, false⟩ : Mgr).g.s_surface = 0 ∧ (⟨⟨0, 0, 0⟩, false⟩ : Mgr).g.s_context = 0 :=
  ⟨by decide,
    display_null_implies_others_null
      [Op.acquire 7 ⟨1, true, true, 2, 1, 3, 0, true⟩,
       Op.acquire 7 ⟨1, true, true, 2, 1, 3, 4, true⟩,
       Op.release true,
       Op.acquire 7 ⟨1, true, true, 2, 1, 0, 4, true⟩] ⟨⟨0, 0, 0⟩, false⟩ (by decide) rfl⟩

/-! ## The positional sweep -/

/-- One update sends `10 * (n mod 129)` to `10 * ((n + 1) mod 129)`. -/
theorem sweep_step (n : Nat) :
    sweep (10 * ((n % 129 : Nat) : Int)) = 10 * (((n + 1) % 129 : Nat) : Int) := by
  unfold sweep FB_WIDTH
  by_cases h : n % 129 = 128
  · have h1 : (n + 1) % 129 = 0 := by omega
    rw [h, h1]
    decide
  · have h1 : (n + 1) % 129 = n % 129 + 1 := by omega
    have h2 : n % 129 < 128 := by omega
    rw [h1]
    simp only
    rw [if_neg (by omega)]
    push_cast
    ring

/-- The value of `x` after `n` updates from 0. -/
theorem sweep_iterate_eq (n : Nat) : sweep^[n] 0 = 10 * ((n % 129 : Nat) : Int) := by
  induction n with
  | zero => rfl
  | succ k ih => rw [Function.iterate_succ_apply', ih, sweep_step]

/-- C7: starting from `x = 0`, after `n` updates `x += 10; if (x > FB_WIDTH) x = 0;` the
value of `x` is `10 * (n mod 129)`: it runs 0, 10, ..., 1280 and is reset to 0 by update
number 129; so `0 ≤ x ≤ FB_WIDTH = 1280` after every update. -/
theorem sweep_is_modular_counter (n : Nat) :
    sweep^[n] 0 = 10 * ((n % 129 : Nat) : Int) ∧
    0 ≤ sweep^[n] 0 ∧ sweep^[n] 0 ≤ FB_WIDTH ∧ FB_WIDTH = 1280 ∧
    sweep^[128] 0 = 1280 ∧ sweep^[129] 0 = 0 := by
  have h := sweep_iterate_eq n
  have hlt : n % 129 < 129 := Nat.mod_lt n (by decide)
  refine ⟨h, ?_, ?_, rfl, ?_, ?_⟩
  · rw [h]; omega
  · rw [h]; unfold FB_WIDTH; omega
  · rw [sweep_iterate_eq]; decide
  · rw [sweep_iterate_eq]; decide

/-! ## The frame loop -/

/-- While `appletMainLoop()` returns true and `+` is not down, the loop runs complete
iterations. -/
theorem mainLoop_run (env : Env) (g : Globals) (n : Nat) :
    ∀ (fuel i : Nat) (x : Int),
      (∀ j, j < n → env.appletMainLoop (i + j) = true ∧
        env.hidKeysDown (i + j) &&& env.KEY_PLUS = 0) →
      mainLoop env g (n + fuel) i x =
        ⟨(mainLoop env g fuel (i + n) (sweep^[n] x)).finished,
         (mainLoop env g fuel (i + n) (sweep^[n] x)).x,
         cycles env g n i x ++ (mainLoop env g fuel (i + n) (sweep^[n] x)).trace⟩ := by
  induction n with
  | zero =>
    intro fuel i x _
    simp [cycles]
  | succ k ih =>
    intro fuel i x h
    have h0 := h 0 (Nat.succ_pos k)
    simp only [Nat.add_zero] at h0
    have hrest : ∀ j, j < k → env.appletMainLoop (i + 1 + j) = true ∧
        env.hidKeysDown (i + 1 + j) &&& env.KEY_PLUS = 0 := by
      intro j hj
      have := h (j + 1) (Nat.succ_lt_succ hj)
      rw [show i + (j + 1) = i + 1 + j by omega] at this
      exact this
    have e : k + 1 + fuel = (k + fuel) + 1 := by omega
    rw [e]
    simp only [mainLoop, h0.1, h0.2, Bool.true_eq_false, if_false, ne_eq, not_true_eq_false]
    rw [ih fuel (i + 1) (sweep x) hrest]
    rw [show i + 1 + k = i + (k + 1) by omega, Function.iterate_succ_apply]
    simp [cycles, List.append_assoc]

/-- Counting in the events of complete iterations. -/
theorem countP_cycles (env : Env) (g : Globals) (p : Event → Bool) (a b : Nat)
    (ha : ∀ i, (pollEvents env i).countP p = a) (hb : ∀ x, (frameBody g x).countP p = b)
    (n : Nat) : ∀ (i : Nat) (x : Int), (cycles env g n i x).countP p = n * (a + b) := by
  induction n with
  | zero => intro i x; simp [cycles]
  | succ k ih =>
    intro i x
    simp only [cycles, List.countP_append, ha, hb, ih]
    ring

/-- If the loop is left, it is left at an iteration where `appletMainLoop()` returned
false or `+` was down, after complete iterations only. -/
theorem mainLoop_finished (env : Env) (g : Globals) (fuel : Nat) :
    ∀ (i : Nat) (x : Int), (mainLoop env g fuel i x).finished = true →
      ∃ n, n < fuel ∧
        (∀ j, j < n → env.appletMainLoop (i + j) = true ∧
          env.hidKeysDown (i + j) &&& env.KEY_PLUS = 0) ∧
        (env.appletMainLoop (i + n) = false ∨
          env.hidKeysDown (i + n) &&& env.KEY_PLUS ≠ 0) := by
  induction fuel with
  | zero =>
    intro i x h
    simp [mainLoop] at h
  | succ f ih =>
    intro i x h
    by_cases ha : env.appletMainLoop i = false
    · exact ⟨0, Nat.succ_pos f, fun j hj => absurd hj (Nat.not_lt_zero j), Or.inl ha⟩
    · by_cases hk : env.hidKeysDown i &&& env.KEY_PLUS = 0
      · simp only [mainLoop, ha, hk, if_false, ne_eq, not_true_eq_false] at h
        obtain ⟨n, hn, hall, hend⟩ := ih (i + 1) (sweep x) h
        refine ⟨n + 1, Nat.succ_lt_succ hn, ?_, ?_⟩
        · intro j hj
          cases j with
          | zero => exact ⟨by simpa using ha, hk⟩
          | succ j1 =>
            have := hall j1 (Nat.lt_of_succ_lt_succ hj)
            rw [show i + 1 + j1 = i + (j1 + 1) by omega] at this
            exact this
        · rw [show i + (n + 1) = i + 1 + n by omega]
          exact hend
      · exact ⟨0, Nat.succ_pos f, fun j hj => absurd hj (Nat.not_lt_zero j), Or.inr hk⟩

/-- The loop result when the loop is left at iteration `n` after `n` complete iterations. -/
theorem mainLoop_exit (env : Env) (g : Globals) (n fuel : Nat) (hfuel : n < fuel)
    (hall : ∀ j, j < n → env.appletMainLoop j = true ∧
      env.hidKeysDown j &&& env.KEY_PLUS = 0)
    (hend : env.appletMainLoop n = false ∨ env.hidKeysDown n &&& env.KEY_PLUS ≠ 0) :
    mainLoop env g fuel 0 0 =
      ⟨true, sweep^[n] 0, cycles env g n 0 0 ++ exitEvents env n⟩ := by
  obtain ⟨f, rfl⟩ : ∃ f, fuel = n + (f + 1) := ⟨fuel - n - 1, by omega⟩
  have hall0 : ∀ j, j < n → env.appletMainLoop (0 + j) = true ∧
      env.hidKeysDown (0 + j) &&& env.KEY_PLUS = 0 := by
    intro j hj
    rw [Nat.zero_add]
    exact hall j hj
  rw [mainLoop_run env g n (f + 1) 0 0 hall0, Nat.zero_add]
  by_cases ha : env.appletMainLoop n = false
  · simp [mainLoop, exitEvents, ha]
  · have hk : env.hidKeysDown n &&& env.KEY_PLUS ≠ 0 := by
      cases hend with
      | inl h => exact absurd h ha
      | inr h => exact h
    simp [mainLoop, exitEvents, ha, hk]

/-- The explicit loop result whenever the loop is left. -/
theorem mainLoop_finished_eq (env : Env) (g : Globals) (fuel : Nat)
    (h : (mainLoop env g fuel 0 0).finished = true) :
    ∃ n, n < fuel ∧
      (∀ j, j < n → env.appletMainLoop j = true ∧ env.hidKeysDown j &&& env.KEY_PLUS = 0) ∧
      (env.appletMainLoop n = false ∨ env.hidKeysDown n &&& env.KEY_PLUS ≠ 0) ∧
      mainLoop env g fuel 0 0 =
        ⟨true, sweep^[n] 0, cycles env g n 0 0 ++ exitEvents env n⟩ := by
  obtain ⟨n, hn, hall, hend⟩ := mainLoop_finished env g fuel 0 0 h
  simp only [Nat.zero_add] at hall hend
  exact ⟨n, hn, hall, hend, mainLoop_exit env g n fuel hn hall hend⟩

/-- The loop result while the loop keeps running. -/
theorem mainLoop_running (env : Env) (g : Globals) (fuel : Nat)
    (hall : ∀ j, j < fuel → env.appletMainLoop j = true ∧
      env.hidKeysDown j &&& env.KEY_PLUS = 0) :
    mainLoop env g fuel 0 0 = ⟨false, sweep^[fuel] 0, cycles env g fuel 0 0⟩ := by
  have hall0 : ∀ j, j < fuel → env.appletMainLoop (0 + j) = true ∧
      env.hidKeysDown (0 + j) &&& env.KEY_PLUS = 0 := by
    intro j hj
    rw [Nat.zero_add]
    exact hall j hj
  have := mainLoop_run env g fuel 0 0 0 hall0
  simpa [mainLoop] using this

/-! ## `main` -/

/-- What `deinitEgl` does when all three handles are non-null. -/
theorem deinitEgl_full (mcOk : Bool) (d c s : Handle) (hd : d ≠ 0) (hc : c ≠ 0)
    (hs : s ≠ 0) :
    deinitEgl mcOk ⟨d, c, s⟩ =
      ⟨Globals.empty,
        [EglCall.eglMakeCurrent d 0 0 0 mcOk, EglCall.eglDestroyContext d c,
         EglCall.eglDestroySurface d s, EglCall.eglTerminate d]⟩ := by
  simp [deinitEgl, Globals.empty, hd, hc, hs]

/-- The result of `main` when `initEgl` succeeds and the loop is left. -/
theorem main_of_finished (env : Env) (fuel : Nat)
    (hinit : (initEgl env.win env.egl Globals.empty).ret = true)
    (hfin : (mainLoop env (initEgl env.win env.egl Globals.empty).globals fuel 0 0).finished
      = true) :
    main env fuel =
      ⟨some 0, startEvents env ++
        (mainLoop env (initEgl env.win env.egl Globals.empty).globals fuel 0 0).trace ++
        releaseEvents env ++ scopeExit⟩ := by
  simp [main, hinit, hfin, startEvents, releaseEvents]

/-- The result of `main` while the loop keeps running. -/
theorem main_of_running (env : Env) (fuel : Nat)
    (hinit : (initEgl env.win env.egl Globals.empty).ret = true)
    (hfin : (mainLoop env (initEgl env.win env.egl Globals.empty).globals fuel 0 0).finished
      = false) :
    main env fuel =
      ⟨none, startEvents env ++
        (mainLoop env (initEgl env.win env.egl Globals.empty).globals fuel 0 0).trace⟩ := by
  simp [main, hinit, hfin, startEvents]

/-- The function `main` returns 0 only when `initEgl` succeeded and the loop was left. -/
theorem main_status_zero (env : Env) (fuel : Nat) (h : (main env fuel).status = some 0) :
    (initEgl env.win env.egl Globals.empty).ret = true ∧
    (mainLoop env (initEgl env.win env.egl Globals.empty).globals fuel 0 0).finished
      = true := by
  cases hr : (initEgl env.win env.egl Globals.empty).ret
  · simp [main, hr, EXIT_FAILURE] at h
  · cases hf : (mainLoop env (initEgl env.win env.egl Globals.empty).globals fuel 0 0).finished
    · simp [main, hr, hf] at h
    · exact ⟨rfl, rfl⟩

/-- The events before the loop when the five checks of `initEgl` pass. -/
theorem startEvents_eq (env : Env) (h : checkedStepsOk env.egl) :
    startEvents env =
      [Event.nwindowGetDefault env.win,
       Event.egl (EglCall.eglGetDisplay env.egl.display),
       Event.egl (EglCall.eglInitialize env.egl.display env.egl.initializeOk),
       Event.egl (EglCall.eglBindAPI env.egl.bindApiOk),
       Event.egl (EglCall.eglChooseConfig env.egl.display env.egl.config env.egl.numConfigs),
       Event.egl (EglCall.eglCreateWindowSurface env.egl.display env.egl.config env.win
         env.egl.surface),
       Event.egl (EglCall.eglCreateContext env.egl.display env.egl.config 0 env.egl.context),
       Event.egl (EglCall.eglMakeCurrent env.egl.display env.egl.surface env.egl.surface
         env.egl.context env.egl.makeCurrentOk),
       Event.GrGLMakeNativeInterface, Event.GrContextMakeGL, Event.fGetIntegerv env.buffer,
       Event.MakeFromBackendRenderTarget FB_WIDTH FB_HEIGHT env.buffer, Event.getCanvas] := by
  simp [startEvents, setupEvents, initEgl_of_checkedStepsOk env.win env.egl Globals.empty h]

/-- The events of the `deinitEgl()` call of `main` when the five checks of `initEgl`
passed. -/
theorem releaseEvents_eq (env : Env) (h : checkedStepsOk env.egl) :
    releaseEvents env =
      [Event.egl (EglCall.eglMakeCurrent env.egl.display 0 0 0 env.deinitMakeCurrentOk),
       Event.egl (EglCall.eglDestroyContext env.egl.display env.egl.context),
       Event.egl (EglCall.eglDestroySurface env.egl.display env.egl.surface),
       Event.egl (EglCall.eglTerminate env.egl.display)] := by
  simp [releaseEvents, initEgl_of_checkedStepsOk env.win env.egl Globals.empty h,
    deinitEgl_full env.deinitMakeCurrentOk _ _ _ h.1 h.2.2.2.2 h.2.2.2.1]

/-- No `deinitEgl` call and no destructor occurs among the events before the loop. -/
theorem startEvents_counts (env : Env) (h : checkedStepsOk env.egl) :
    (startEvents env).countP isClearBinding = 0 ∧ (startEvents env).countP isTerminate = 0 ∧
    (startEvents env).countP isPresent = 0 ∧ (startEvents env).countP isPoll = 0 ∧
    (startEvents env).any isDiscard = false := by
  rw [startEvents_eq env h]
  have hs : env.egl.surface ≠ 0 := h.2.2.2.1
  simp [isClearBinding, isTerminate, isPresent, isPoll, isDiscard, hs]

/-- The `deinitEgl()` call of `main` clears the binding once and terminates once. -/
theorem releaseEvents_counts (env : Env) (h : checkedStepsOk env.egl) :
    (releaseEvents env).countP isClearBinding = 1 ∧
    (releaseEvents env).countP isTerminate = 1 ∧
    (releaseEvents env).countP isPresent = 0 ∧ (releaseEvents env).countP isPoll = 0 ∧
    (releaseEvents env).any isDiscard = false ∧
    (releaseEvents env).any isClearBinding = true := by
  rw [releaseEvents_eq env h]
  simp [isClearBinding, isTerminate, isPresent, isPoll, isDiscard]

/-- Counts in the events of `n` complete iterations. -/
theorem cycles_counts (env : Env) (g : Globals) (n i : Nat) (x : Int) :
    (cycles env g n i x).countP isPoll = n ∧ (cycles env g n i x).countP isClear = n ∧
    (cycles env g n i x).countP isDrawCircle = 12 * n ∧
    (cycles env g n i x).countP isFlush = n ∧ (cycles env g n i x).countP isPresent = n ∧
    (cycles env g n i x).countP isClearBinding = 0 ∧
    (cycles env g n i x).countP isTerminate = 0 := by
  refine ⟨?_, ?_, ?_, ?_, ?_, ?_, ?_⟩
  · rw [countP_cycles env g isPoll 1 0 (fun _ => by simp [pollEvents, isPoll])
      (fun _ => by simp [frameBody, draw, isPoll])]
    omega
  · rw [countP_cycles env g isClear 0 1 (fun _ => by simp [pollEvents, isClear])
      (fun _ => by simp [frameBody, draw, isClear])]
    omega
  · rw [countP_cycles env g isDrawCircle 0 12 (fun _ => by simp [pollEvents, isDrawCircle])
      (fun _ => by simp [frameBody, draw, isDrawCircle])]
    omega
  · rw [countP_cycles env g isFlush 0 1 (fun _ => by simp [pollEvents, isFlush])
      (fun _ => by simp [frameBody, draw, isFlush])]
    omega
  · rw [countP_cycles env g isPresent 0 1 (fun _ => by simp [pollEvents, isPresent])
      (fun _ => by simp [frameBody, draw, isPresent])]
    omega
  · rw [countP_cycles env g isClearBinding 0 0 (fun _ => by simp [pollEvents, isClearBinding])
      (fun _ => by simp [frameBody, draw, isClearBinding])]
    omega
  · rw [countP_cycles env g isTerminate 0 0 (fun _ => by simp [pollEvents, isTerminate])
      (fun _ => by simp [frameBody, draw, isTerminate])]
    omega

/-- No destructor occurs among the events of complete iterations. -/
theorem cycles_no_discard (env : Env) (g : Globals) (n : Nat) :
    ∀ (i : Nat) (x : Int), (cycles env g n i x).any isDiscard = false := by
  induction n with
  | zero => intro i x; rfl
  | succ k ih =>
    intro i x
    simp [cycles, ih, pollEvents, frameBody, draw, isDiscard]

/-- Counts in the events of the iteration at which the loop is left: no rendering, no
release, no destructor. -/
theorem exitEvents_counts (env : Env) (n : Nat) :
    (exitEvents env n).countP isClear = 0 ∧ (exitEvents env n).countP isDrawCircle = 0 ∧
    (exitEvents env n).countP isFlush = 0 ∧ (exitEvents env n).countP isPresent = 0 ∧
    (exitEvents env n).countP isClearBinding = 0 ∧
    (exitEvents env n).countP isTerminate = 0 ∧
    (exitEvents env n).any isDiscard = false := by
  unfold exitEvents
  split <;>
    simp [pollEvents, isClear, isDrawCircle, isFlush, isPresent, isClearBinding,
      isTerminate, isDiscard]

/-- C4: when `initEgl` succeeds, the first `k + 1` input polls take place (the loop
condition `appletMainLoop()` holds each time), `+` is not down at the first `k` polls and is
down at poll `k + 1`, then with enough fuel the loop is left after exactly `k` complete
iterations followed by the final poll: `k + 1` polls, `k` clears, `3 k` calls of `draw`
(`12 k` circles), `k` flushes, `k` presents, nothing rendered after the final poll, `x`
equal to `k` updates from 0 (30 for `k = 3`), and `main` then runs `deinitEgl` exactly once
and returns 0. -/
theorem frame_loop_cycles (env : Env) (k fuel : Nat)
    (hinit : (initEgl env.win env.egl Globals.empty).ret = true)
    (happ : ∀ i, i ≤ k → env.appletMainLoop i = true)
    (hno : ∀ i, i < k → env.hidKeysDown i &&& env.KEY_PLUS = 0)
    (hexit : env.hidKeysDown k &&& env.KEY_PLUS ≠ 0)
    (hfuel : k < fuel) :
    mainLoop env (initEgl env.win env.egl Globals.empty).globals fuel 0 0 =
      ⟨true, sweep^[k] 0,
        cycles env (initEgl env.win env.egl Globals.empty).globals k 0 0 ++
          pollEvents env k⟩ ∧
    (mainLoop env (initEgl env.win env.egl Globals.empty).globals fuel 0 0).trace.countP
      isPoll = k + 1 ∧
    (mainLoop env (initEgl env.win env.egl Globals.empty).globals fuel 0 0).trace.countP
      isClear = k ∧
    (mainLoop env (initEgl env.win env.egl Globals.empty).globals fuel 0 0).trace.countP
      isDrawCircle = 12 * k ∧
    (mainLoop env (initEgl env.win env.egl Globals.empty).globals fuel 0 0).trace.countP
      isFlush = k ∧
    (mainLoop env (initEgl env.win env.egl Globals.empty).globals fuel 0 0).trace.countP
      isPresent = k ∧
    (mainLoop env (initEgl env.win env.egl Globals.empty).globals fuel 0 0).x
      = 10 * ((k % 129 : Nat) : Int) ∧
    (k = 3 → (mainLoop env (initEgl env.win env.egl Globals.empty).globals fuel 0 0).x = 30) ∧
    main env fuel =
      ⟨some 0, startEvents env ++
        (cycles env (initEgl env.win env.egl Globals.empty).globals k 0 0 ++
          pollEvents env k) ++ releaseEvents env ++ scopeExit⟩ ∧
    (main env fuel).trace.countP isClearBinding = 1 ∧
    (main env fuel).trace.countP isTerminate = 1 := by
  have hok : checkedStepsOk env.egl := (initEgl_ret_iff _ _ _).1 hinit
  have hall : ∀ j, j < k → env.appletMainLoop j = true ∧
      env.hidKeysDown j &&& env.KEY_PLUS = 0 :=
    fun j hj => ⟨happ j (Nat.le_of_lt hj), hno j hj⟩
  have hloop := mainLoop_exit env (initEgl env.win env.egl Globals.empty).globals k fuel
    hfuel hall (Or.inr hexit)
  have hex : exitEvents env k = pollEvents env k := by
    simp [exitEvents, happ k (Nat.le_refl k)]
  rw [hex] at hloop
  have hc := cycles_counts env (initEgl env.win env.egl Globals.empty).globals k 0 0
  have hmain := main_of_finished env fuel hinit (by rw [hloop])
  rw [hloop] at hmain
  have hs := startEvents_counts env hok
  have hr := releaseEvents_counts env hok
  rw [hmain, hloop]
  refine ⟨rfl, ?_, ?_, ?_, ?_, ?_, sweep_iterate_eq k, ?_, rfl, ?_, ?_⟩
  · simp [List.countP_append, hc.1, pollEvents, isPoll]
  · simp [List.countP_append, hc.2.1, pollEvents, isClear]
  · simp [List.countP_append, hc.2.2.1, pollEvents, isDrawCircle]
  · simp [List.countP_append, hc.2.2.2.1, pollEvents, isFlush]
  · simp [List.countP_append, hc.2.2.2.2.1, pollEvents, isPresent]
  · intro h3
    subst h3
    rfl
  · simp [List.countP_append, hc.2.2.2.2.2.1, hs.1, hr.1, pollEvents, scopeExit,
      isClearBinding]
  · simp [List.countP_append, hc.2.2.2.2.2.2, hs.2.1, hr.2.1, pollEvents, scopeExit,
      isTerminate]

/-- Witness of `frame_loop_cycles`: `+` is down at the fourth poll. -/
theorem frame_loop_cycles_witness :
    (initEgl (sampleEnv 3).win (sampleEnv 3).egl Globals.empty).ret = true ∧
    (∀ i, i ≤ 3 → (sampleEnv 3).appletMainLoop i = true) ∧
    (∀ i, i < 3 → (sampleEnv 3).hidKeysDown i &&& (sampleEnv 3).KEY_PLUS = 0) ∧
    (sampleEnv 3).hidKeysDown 3 &&& (sampleEnv 3).KEY_PLUS ≠ 0 ∧
    (mainLoop (sampleEnv 3)
      (initEgl (sampleEnv 3).win (sampleEnv 3).egl Globals.empty).globals 4 0 0).trace.countP
      isPresent = 3 ∧
    (mainLoop (sampleEnv 3)
      (initEgl (sampleEnv 3).win (sampleEnv 3).egl Globals.empty).globals 4 0 0).x = 30 ∧
    (main (sampleEnv 3) 4).trace.countP isTerminate = 1 :=
  have h1 : (initEgl (sampleEnv 3).win (sampleEnv 3).egl Globals.empty).ret = true := rfl
  have h2 : ∀ i, i ≤ 3 → (sampleEnv 3).appletMainLoop i = true := fun _ _ => rfl
  have h3 : ∀ i, i < 3 → (sampleEnv 3).hidKeysDown i &&& (sampleEnv 3).KEY_PLUS = 0 := by
    intro i hi
    have hne : i ≠ 3 := Nat.ne_of_lt hi
    simp [sampleEnv, hne]
  have h4 : (sampleEnv 3).hidKeysDown 3 &&& (sampleEnv 3).KEY_PLUS ≠ 0 := by decide
  have t := frame_loop_cycles (sampleEnv 3) 3 4 h1 h2 h3 h4 (by decide)
  ⟨h1, h2, h3, h4, t.2.2.2.2.2.1, t.2.2.2.2.2.2.2.1 rfl, t.2.2.2.2.2.2.2.2.2.2⟩

/-- Counterexample to C5 as stated: with `appletMainLoop()` returning false at its first
call, the loop is left and `main` runs `deinitEgl` and returns 0, although no input poll
took place and no poll would ever report `+`. -/
theorem loop_left_without_exit_poll :
    (main appletStopEnv 1).status = some 0 ∧
    (main appletStopEnv 1).trace.countP isClearBinding = 1 ∧
    (main appletStopEnv 1).trace.countP isPoll = 0 ∧
    ¬ ∃ i, appletStopEnv.hidKeysDown i &&& appletStopEnv.KEY_PLUS ≠ 0 := by
  refine ⟨by decide, by decide, by decide, ?_⟩
  rintro ⟨i, hi⟩
  exact hi (by simp [appletStopEnv])

/-- C5 (amended): `main` leaves the loop, runs `deinitEgl` and returns 0 only at an
iteration at which `appletMainLoop()` returned false or the input poll reported `+`, every
earlier iteration having rendered and presented one frame; and while `appletMainLoop()`
returns true and no poll reports `+`, the loop is still running after any number of
iterations, with one frame presented per iteration and `deinitEgl` not called. -/
theorem loop_left_only_on_exit_conditions (env : Env) (fuel : Nat) :
    ((main env fuel).status = some 0 →
      ∃ n, n < fuel ∧
        (∀ j, j < n → env.appletMainLoop j = true ∧
          env.hidKeysDown j &&& env.KEY_PLUS = 0) ∧
        (env.appletMainLoop n = false ∨ env.hidKeysDown n &&& env.KEY_PLUS ≠ 0) ∧
        (main env fuel).trace.countP isPresent = n ∧
        (main env fuel).trace.countP isClearBinding = 1) ∧
    ((initEgl env.win env.egl Globals.empty).ret = true →
      (∀ j, env.appletMainLoop j = true ∧ env.hidKeysDown j &&& env.KEY_PLUS = 0) →
      (main env fuel).status = none ∧
      (main env fuel).trace.countP isPresent = fuel ∧
      (main env fuel).trace.countP isClearBinding = 0) := by
  constructor
  · intro h
    obtain ⟨hinit, hfin⟩ := main_status_zero env fuel h
    have hok : checkedStepsOk env.egl := (initEgl_ret_iff _ _ _).1 hinit
    obtain ⟨n, hn, hall, hend, heq⟩ := mainLoop_finished_eq env _ fuel hfin
    have hmain := main_of_finished env fuel hinit hfin
    rw [heq] at hmain
    have hc := cycles_counts env (initEgl env.win env.egl Globals.empty).globals n 0 0
    have hs := startEvents_counts env hok
    have hr := releaseEvents_counts env hok
    have he := exitEvents_counts env n
    refine ⟨n, hn, hall, hend, ?_, ?_⟩
    · rw [hmain]
      simp [List.countP_append, hc.2.2.2.2.1, hs.2.2.1, hr.2.2.1, he.2.2.2.1, scopeExit,
        isPresent]
    · rw [hmain]
      simp [List.countP_append, hc.2.2.2.2.2.1, hs.1, hr.1, he.2.2.2.2.1, scopeExit,
        isClearBinding]
  · intro hinit hall
    have hok : checkedStepsOk env.egl := (initEgl_ret_iff _ _ _).1 hinit
    have hrun := mainLoop_running env (initEgl env.win env.egl Globals.empty).globals fuel
      (fun j _ => hall j)
    have hmain := main_of_running env fuel hinit (by rw [hrun])
    rw [hrun] at hmain
    have hc := cycles_counts env (initEgl env.win env.egl Globals.empty).globals fuel 0 0
    have hs := startEvents_counts env hok
    rw [hmain]
    refine ⟨rfl, ?_, ?_⟩
    · simp [List.countP_append, hc.2.2.2.2.1, hs.2.2.1]
    · simp [List.countP_append, hc.2.2.2.2.2.1, hs.1]

/-- Witness of `loop_left_only_on_exit_conditions`: the run that `appletMainLoop()` ends
at its first call, and a run that is never asked to stop. -/
theorem loop_left_only_on_exit_conditions_witness :
    ((main appletStopEnv 1).status = some 0 ∧
      ∃ n, n < 1 ∧
        (∀ j, j < n → appletStopEnv.appletMainLoop j = true ∧
          appletStopEnv.hidKeysDown j &&& appletStopEnv.KEY_PLUS = 0) ∧
        (appletStopEnv.appletMainLoop n = false ∨
          appletStopEnv.hidKeysDown n &&& appletStopEnv.KEY_PLUS ≠ 0) ∧
        (main appletStopEnv 1).trace.countP isPresent = n ∧
        (main appletStopEnv 1).trace.countP isClearBinding = 1) ∧
    ((initEgl idleEnv.win idleEnv.egl Globals.empty).ret = true ∧
      (∀ j, idleEnv.appletMainLoop j = true ∧
        idleEnv.hidKeysDown j &&& idleEnv.KEY_PLUS = 0) ∧
      (main idleEnv 5).status = none ∧
      (main idleEnv 5).trace.countP isPresent = 5 ∧
      (main idleEnv 5).trace.countP isClearBinding = 0) :=
  have h1 : (initEgl idleEnv.win idleEnv.egl Globals.empty).ret = true := rfl
  have h2 : ∀ j, idleEnv.appletMainLoop j = true ∧
      idleEnv.hidKeysDown j &&& idleEnv.KEY_PLUS = 0 :=
    fun _ => ⟨rfl, by simp [idleEnv]⟩
  ⟨⟨by decide, (loop_left_only_on_exit_conditions appletStopEnv 1).1 (by decide)⟩,
    ⟨h1, h2, (loop_left_only_on_exit_conditions idleEnv 5).2 h1 h2⟩⟩

/-! ## Order of the release and of the destructors in `main` -/

/-- No event satisfying `p`: nothing satisfying `p` comes before anything. -/
theorem occursBefore_of_any_left (p q : Event → Bool) (l : List Event)
    (h : l.any p = false) : occursBefore p q l = false := by
  induction l with
  | nil => rfl
  | cons e es ih =>
    simp only [List.any_cons, Bool.or_eq_false_iff] at h
    simp [occursBefore, h.1, ih h.2]

/-- No event satisfying `q`: nothing comes before an event satisfying `q`. -/
theorem occursBefore_of_any_right (p q : Event → Bool) (l : List Event)
    (h : l.any q = false) : occursBefore p q l = false := by
  induction l with
  | nil => rfl
  | cons e es ih =>
    simp only [List.any_cons, Bool.or_eq_false_iff] at h
    simp only [occursBefore, ih h.2, h.2, Bool.and_false, Bool.or_false]

/-- How `occursBefore` splits over a concatenation. -/
theorem occursBefore_append (p q : Event → Bool) (a b : List Event) :
    occursBefore p q (a ++ b) =
      (occursBefore p q a || (a.any p && b.any q) || occursBefore p q b) := by
  induction a with
  | nil => simp [occursBefore]
  | cons e es ih =>
    show ((p e && (es ++ b).any q) || occursBefore p q (es ++ b)) =
      (((p e && es.any q) || occursBefore p q es) || ((e :: es).any p && b.any q) ||
        occursBefore p q b)
    rw [ih, List.any_append, List.any_cons]
    cases p e <;> cases es.any q <;> cases b.any q <;> cases es.any p <;>
      cases occursBefore p q es <;> cases occursBefore p q b <;> rfl

/-- Counterexample to C2 as stated: in the run where `+` is down at the first poll,
`initEgl` succeeds, the loop ends and `main` returns 0, yet the destructor of `surface` does
not come before the `eglMakeCurrent` of `deinitEgl` that clears the binding; it comes
after it. -/
theorem discard_not_before_release :
    (main (sampleEnv 0) 1).status = some 0 ∧
    occursBefore isDiscard isClearBinding (main (sampleEnv 0) 1).trace = false ∧
    occursBefore isClearBinding isDiscard (main (sampleEnv 0) 1).trace = true := by
  refine ⟨by decide, by decide, by decide⟩

/-- C2 (amended): in every run of `main` in which `initEgl` succeeds and the loop ends,
the trace ends with the events of `deinitEgl` followed by the destructors of `surface`,
`ctx` and `interface`, and no destructor comes earlier: the `eglMakeCurrent` of `deinitEgl`
that clears the binding comes before the discard of the GPU draw surface, and the discard
does not come before it. -/
theorem release_precedes_discard (env : Env) (fuel : Nat)
    (h : (main env fuel).status = some 0) :
    (∃ pre, (main env fuel).trace = pre ++ releaseEvents env ++ scopeExit ∧
      pre.any isDiscard = false) ∧
    (releaseEvents env).any isClearBinding = true ∧
    (releaseEvents env).any isDiscard = false ∧
    scopeExit = [Event.dropSurface, Event.dropGrContext, Event.dropInterface] ∧
    occursBefore isClearBinding isDiscard (main env fuel).trace = true ∧
    occursBefore isDiscard isClearBinding (main env fuel).trace = false := by
  obtain ⟨hinit, hfin⟩ := main_status_zero env fuel h
  have hok : checkedStepsOk env.egl := (initEgl_ret_iff _ _ _).1 hinit
  obtain ⟨n, _, _, _, heq⟩ := mainLoop_finished_eq env _ fuel hfin
  have hmain := main_of_finished env fuel hinit hfin
  rw [heq] at hmain
  have hs := startEvents_counts env hok
  have hr := releaseEvents_counts env hok
  have he := exitEvents_counts env n
  have hcy := cycles_no_discard env (initEgl env.win env.egl Globals.empty).globals n 0 0
  have hpre : (startEvents env ++
      (cycles env (initEgl env.win env.egl Globals.empty).globals n 0 0 ++
        exitEvents env n)).any isDiscard = false := by
    simp only [List.any_append, hs.2.2.2.2, hcy, he.2.2.2.2.2.2, Bool.or_false]
  have hse : scopeExit.any isClearBinding = false := by decide
  have hsd : scopeExit.any isDiscard = true := by decide
  rw [hmain]
  refine ⟨⟨_, rfl, hpre⟩, hr.2.2.2.2.2, hr.2.2.2.2.1, rfl, ?_, ?_⟩
  · rw [occursBefore_append, List.any_append, hr.2.2.2.2.2, hsd]
    simp
  · rw [occursBefore_append, List.any_append, hpre, hr.2.2.2.2.1,
      occursBefore_of_any_right _ _ _ hse,
      occursBefore_of_any_left _ _ _ (by rw [List.any_append, hpre, hr.2.2.2.2.1]; rfl)]
    rfl

/-- Witness of `release_precedes_discard`: the run where `+` is down at the first poll. -/
theorem release_precedes_discard_witness :
    (main (sampleEnv 0) 1).status = some 0 ∧
    occursBefore isClearBinding isDiscard (main (sampleEnv 0) 1).trace = true :=
  ⟨by decide, (release_precedes_discard (sampleEnv 0) 1 (by decide)).2.2.2.2.1⟩

end SwitchSkia
